import Mathlib

/-
Verification of the peer-dial DIAL protocol implementation
(src/src/peer-dial.ts) against its natural-language specification.

The development shallowly embeds the parts of the TypeScript source that
the claims are about:

  * the header merge helper (merge) used for alive / byebye / search-reply
    messages, over a JavaScript value type with JavaScript truthiness;
  * Server.stop (the five byebye withdrawals and the countdown barrier in
    the done callback that closes the transport);
  * the express route handlers for GET /apps/:appName,
    POST /apps/:appName and DELETE /apps/:appName/:pid, made deterministic
    by passing the delegate results (app info, launch pid / error, stop
    success) as arguments and by recording in a Bool whether the
    corresponding delegate hook was invoked;
  * the application description XML renderer APP_DESC_RENDERER;
  * the discovery Client found / notify handlers and refresh, as a step
    function on the recorded-services association list, returning the list
    of emitted events;
  * the DialDevice getAppInfoXml / launchApp / stopApp argument guards and
    request construction, where CallOutcome.immediateError models the
    branch that invokes the user callback exactly once with a null result
    and an Error and issues no HTTP request, and CallOutcome.request models
    the branch that issues the described HTTP request.
-/

-- ===========================================================================
-- Definitions
-- ===========================================================================

/-- A JavaScript header value: string, number or boolean, as admitted by
getExtraHeaders in the source. -/
inductive JsVal where
  | str : String → JsVal
  | num : Int → JsVal
  | bool : Bool → JsVal
deriving DecidableEq, Repr

/-- JavaScript truthiness of a header value: the empty string, 0 and false
are falsy, everything else is truthy. -/
def JsVal.truthy : JsVal → Bool
  | .str s => s ≠ ""
  | .num n => n ≠ 0
  | .bool b => b

/-- A JavaScript object with string keys, as an insertion-ordered
association list with unique keys. -/
abbrev JsObj := List (String × JsVal)

/-- Property lookup on a JavaScript object (undefined becomes none). -/
def lookupJs : JsObj → String → Option JsVal
  | [], _ => none
  | (k, v) :: rest, key => if k = key then some v else lookupJs rest key

/-- Property assignment on a JavaScript object: overwrite the existing
entry in place, or append a new entry. -/
def setJs : JsObj → String → JsVal → JsObj
  | [], key, v => [(key, v)]
  | (k, w) :: rest, key, v =>
    if k = key then (k, v) :: rest else (k, w) :: setJs rest key v

/-- One iteration of the merge loop in the source:
obj1[key] = obj1[key] || obj2[key]. A truthy existing value is kept; a
falsy or absent one is replaced by the obj2 value. -/
def mergeStep (obj1 : JsObj) (key : String) (v : JsVal) : JsObj :=
  match lookupJs obj1 key with
  | some w => if w.truthy then setJs obj1 key w else setJs obj1 key v
  | none => setJs obj1 key v

/-- The merge helper of the source: for each key of obj2 (in insertion
order) set obj1[key] = obj1[key] || obj2[key], returning obj1. -/
def merge (obj1 obj2 : JsObj) : JsObj :=
  obj2.foldl (fun acc kv => mergeStep acc kv.1 kv.2) obj1

-- Lookup lemmas for the merge model -----------------------------------------

/-- The SERVER header string; the os fields are irrelevant to the claims,
the concrete value mirrors the shape of SERVER_STR in the source. -/
def serverStr : String := "OS/release UPnP/1.1 famium/0.0.1"

/-- The five fixed service types advertised and withdrawn by the server,
in source order, for a given uuid. -/
def stopServiceTypes (uuid : String) : List String :=
  ["urn:dial-multiscreen-org:service:dial:1",
   "urn:dial-multiscreen-org:device:dial:1",
   "upnp:rootdevice",
   "ssdp:all",
   "uuid:" ++ uuid]

/-- The byebye message sent by Server.stop for one service type: the base
headers NT, USN, SERVER, LOCATION merged with the caller extra headers. -/
def stopByebyeMsg (uuid location : String) (extra : JsObj) (st : String) :
    JsObj :=
  merge [("NT", .str st),
         ("USN", .str ("uuid:" ++ uuid ++ "::" ++ st)),
         ("SERVER", .str serverStr),
         ("LOCATION", .str location)] extra

/-- The batch of byebye messages sent by Server.stop, one per service type
in source order. -/
def stopByebyes (uuid location : String) (extra : JsObj) : List JsObj :=
  (stopServiceTypes uuid).map (stopByebyeMsg uuid location extra)

/-- The countdown barrier of Server.stop: the done callback decrements
remaining and closes the transport when remaining has reached zero. Given
the acknowledgment arrivals (each identified by which of the five byebye
messages it acknowledges) and the initial remaining count, returns how
many times the transport close is invoked. -/
def ackCloses : List (Fin 5) → Int → Nat
  | [], _ => 0
  | _ :: rest, remaining =>
    (if remaining - 1 ≤ 0 then 1 else 0) + ackCloses rest (remaining - 1)

/-- App info returned by the delegate getApp hook. Option models the
optional / nullable TypeScript fields (undefined and null both become
none); maps are insertion-ordered association lists. -/
structure AppInfo where
  name : String
  state : Option String
  pid : Option String
  allowStop : Option Bool
  additionalData : Option (List (String × String))
  namespaces : Option (List (String × String))
deriving DecidableEq, Repr

/-- The second half of the state inference:
(appInfo.pid && "running") || "stopped" with JavaScript truthiness. -/
def inferFromPid (pid : Option String) : String :=
  match pid with
  | some p => if p ≠ "" then "running" else "stopped"
  | none => "stopped"

/-- The state inference of the source:
appInfo.state || (appInfo.pid && "running") || "stopped". A truthy
explicit state wins; otherwise "running" when a truthy pid is present;
otherwise "stopped". -/
def inferState (state pid : Option String) : String :=
  match state with
  | some s => if s ≠ "" then s else inferFromPid pid
  | none => inferFromPid pid

/-- Data passed to the application description renderer, mirroring
AppDescData in the source. -/
structure AppDescData where
  name : String
  state : String
  allowStop : Bool
  rel : String
  href : Option String
  additionalData : Option (List (String × String))
  namespaces : List (String × String)
deriving DecidableEq, Repr

/-- The xmlns attribute text accumulated from the namespaces map. -/
def nsAttrs (ns : List (String × String)) : String :=
  ns.foldl (fun acc kv => acc ++ " xmlns:" ++ kv.1 ++ "=\"" ++ kv.2 ++ "\"") ""

/-- JavaScript template interpolation of a boolean. -/
def boolStr (b : Bool) : String := if b then "true" else "false"

/-- The part of the application description that precedes the state
element: everything of the source template up to and including the
two-space indent of the state line, excluding the state open tag
itself. -/
def appDescOpen (d : AppDescData) : String :=
  "<?xml version=\"1.0\" encoding=\"UTF-8\"?>\n<service xmlns=\"urn:dial-multiscreen-org:schemas:dial\""
    ++ nsAttrs d.namespaces ++ " dialVer=\"1.7\">\n  <name>" ++ d.name
    ++ "</name>\n  <options allowStop=\"" ++ boolStr d.allowStop
    ++ "\"/>\n  "

/-- The optional link element: rendered only when href is a non-empty
string (at the call site rel is always the defined string "run" and href
is the possibly null pid, so the undefined checks of the source are
statically satisfied). -/
def linkPart (d : AppDescData) : String :=
  match d.href with
  | some h => if h ≠ "" then "  <link rel=\"" ++ d.rel ++ "\" href=\"" ++ h ++ "\" />\n" else ""
  | none => ""

/-- The optional additionalData block: present exactly when the
additionalData map is defined, one element per entry. -/
def addDataPart (d : AppDescData) : String :=
  match d.additionalData with
  | some entries =>
    "        <additionalData>\n"
      ++ entries.foldl
        (fun acc kv => acc ++ "            <" ++ kv.1 ++ ">" ++ kv.2 ++ "</" ++ kv.1 ++ ">\n") ""
      ++ "        </additionalData>\n"
  | none => ""

/-- The part of the application description that follows the state
element. -/
def appDescClose (d : AppDescData) : String :=
  "\n" ++ linkPart d ++ addDataPart d ++ "</service>\n"

/-- APP_DESC_RENDERER of the source, written so that the state element is
a visible concatenation component. -/
def appDescRenderer (d : AppDescData) : String :=
  appDescOpen d ++ "<state>" ++ d.state ++ "</state>" ++ appDescClose d

/-- An HTTP response as produced by the handlers: a status code, an
optional content type, an optional body, and an optional LOCATION header.
sendStatus(n) is modelled as status n with no body. -/
structure HttpResponse where
  status : Nat
  contentType : Option String
  body : Option String
  location : Option String
deriving DecidableEq, Repr

/-- The GET /apps/:appName handler: appInfo is the result of the delegate
getApp hook (none when the app is unknown or no hook is configured). -/
def getAppsApp (appInfo : Option AppInfo) (appName : String) : HttpResponse :=
  match appInfo with
  | some a =>
    { status := 200
      contentType := some "application/xml"
      body := some (appDescRenderer
        { name := appName
          state := inferState a.state a.pid
          allowStop := decide (a.allowStop = some true)
          rel := "run"
          href := a.pid
          additionalData := a.additionalData
          namespaces := a.namespaces.getD [] })
      location := none }
  | none => { status := 404, contentType := none, body := none, location := none }

/-- The oversize test of the body middleware result:
req.length && req.length > maxContentLength (a request without a
recognized body content type has no recorded length). -/
def bodyTooLarge (reqLength : Option Nat) (maxContentLength : Nat) : Bool :=
  match reqLength with
  | some l => l ≠ 0 && decide (l > maxContentLength)
  | none => false

/-- The POST /apps/:appName handler, made deterministic: appInfo is the
getApp hook result, launchPid and launchErr are the values the launchApp
hook passes to its completion callback. The Bool in the result records
whether the launchApp hook was invoked. -/
def postAppsApp (appInfo : Option AppInfo) (reqLength : Option Nat)
    (maxContentLength : Nat) (launchPid : Option String) (launchErr : Bool)
    (baseURL appName : String) : HttpResponse × Bool :=
  match appInfo with
  | none => ({ status := 404, contentType := none, body := none, location := none }, false)
  | some a =>
    if bodyTooLarge reqLength maxContentLength then
      ({ status := 413, contentType := none, body := none, location := none }, false)
    else
      -- the state is computed from the app info observed before launchApp runs
      let state := inferState a.state a.pid
      let rsp : HttpResponse :=
        if launchErr then
          { status := 503, contentType := none, body := none, location := none }
        else
          match launchPid with
          | some p =>
            if p ≠ "" then
              { status := if state = "stopped" then 201 else 200
                contentType := none, body := none
                location := some (baseURL ++ "/apps/" ++ appName ++ "/" ++ p) }
            else
              { status := if state = "stopped" then 201 else 200
                contentType := none, body := none, location := none }
          | none =>
            { status := if state = "stopped" then 201 else 200
              contentType := none, body := none, location := none }
      (rsp, true)

/-- The DELETE /apps/:appName/:pid handler, made deterministic: appInfo is
the getApp hook result, stopped is the boolean the stopApp hook passes to
its completion callback. The Bool in the result records whether the
stopApp hook was invoked. -/
def deleteAppsApp (appInfo : Option AppInfo) (pid : String)
    (stopped : Bool) : HttpResponse × Bool :=
  match appInfo with
  | none => ({ status := 404, contentType := none, body := none, location := none }, false)
  | some a =>
    if a.allowStop = some true then
      if pid ≠ "" then
        ({ status := if stopped then 200 else 400
           contentType := none, body := none, location := none }, true)
      else
        ({ status := 400, contentType := none, body := none, location := none }, false)
    else
      ({ status := 405, contentType := none, body := none, location := none }, false)

/-- The SSDP headers the Client handlers read, plus USN so that distinct
advertisements for one location are distinguishable as raw headers. -/
structure SsdpHeaders where
  location : Option String
  nt : Option String
  nts : Option String
  st : Option String
  usn : Option String
deriving DecidableEq, Repr

/-- The two service types the Client searches for. -/
def trackedTypes : List String :=
  ["urn:dial-multiscreen-org:service:dial:1",
   "urn:dial-multiscreen-org:device:dial:1"]

/-- The services record of the Client: location to stored raw headers,
with unique keys. -/
abbrev Services := List (String × SsdpHeaders)

/-- Lookup of a location in the services record. -/
def lookupSrv : Services → String → Option SsdpHeaders
  | [], _ => none
  | (k, v) :: rest, loc => if k = loc then some v else lookupSrv rest loc

/-- delete services[location]. -/
def removeSrv (s : Services) (loc : String) : Services :=
  s.filter fun p => p.1 != loc

/-- Events emitted by the Client. -/
inductive ClientEvent where
  | found : String → SsdpHeaders → ClientEvent
  | disappear : String → SsdpHeaders → ClientEvent
deriving DecidableEq, Repr

/-- The transport "found" handler of the Client: record the location and
emit "found" when a location is present and not already recorded. It
performs no service-type check. -/
def onFound (s : Services) (h : SsdpHeaders) : Services × List ClientEvent :=
  match h.location with
  | some loc =>
    if loc ≠ "" ∧ lookupSrv s loc = none then
      (s ++ [(loc, h)], [.found loc h])
    else (s, [])
  | none => (s, [])

/-- The transport "notify" handler of the Client: only advertisements
whose NT is one of the two tracked types are considered; NTS=ssdp:alive
records an unrecorded location and emits "found"; NTS=ssdp:byebye removes
a recorded location and emits "disappear" with the stored headers. -/
def onNotify (s : Services) (h : SsdpHeaders) : Services × List ClientEvent :=
  match h.nt with
  | some nt' =>
    if nt' ∈ trackedTypes then
      match h.location with
      | some loc =>
        if loc ≠ "" ∧ h.nts = some "ssdp:alive" ∧ lookupSrv s loc = none then
          (s ++ [(loc, h)], [.found loc h])
        else if loc ≠ "" ∧ h.nts = some "ssdp:byebye" then
          match lookupSrv s loc with
          | some stored => (removeSrv s loc, [.disappear loc stored])
          | none => (s, [])
        else (s, [])
      | none => (s, [])
    else (s, [])
  | none => (s, [])

/-- One input to the Client: a transport found event, a transport notify
event, or a refresh() call (which clears the services record and re-issues
the two searches, emitting nothing). -/
inductive ClientInput where
  | found : SsdpHeaders → ClientInput
  | notify : SsdpHeaders → ClientInput
  | refresh : ClientInput
deriving DecidableEq, Repr

/-- One step of the Client. -/
def clientStep (s : Services) (e : ClientInput) : Services × List ClientEvent :=
  match e with
  | .found h => onFound s h
  | .notify h => onNotify s h
  | .refresh => ([], [])

/-- A run of the Client over a sequence of inputs, collecting the emitted
events in order. -/
def clientRun (s : Services) : List ClientInput → Services × List ClientEvent
  | [] => (s, [])
  | e :: rest =>
    let step := clientStep s e
    let tail := clientRun step.1 rest
    (tail.1, step.2 ++ tail.2)

/-- Number of "found" events for a location in an emitted event list. -/
def countFound (loc : String) (evs : List ClientEvent) : Nat :=
  (evs.filter fun e =>
    match e with
    | .found l _ => l == loc
    | .disappear _ _ => false).length

/-- Number of "disappear" events for a location in an emitted event
list. -/
def countDisappear (loc : String) (evs : List ClientEvent) : Nat :=
  (evs.filter fun e =>
    match e with
    | .found _ _ => false
    | .disappear l _ => l == loc).length

/-- 1 when the location is currently recorded, else 0. -/
def recordedInd (s : Services) (loc : String) : Nat :=
  match lookupSrv s loc with
  | some _ => 1
  | none => 0

/-- Outcome of the argument guard at the top of the DialDevice methods:
immediateError models the branch that invokes the callback exactly once
with a null result and an Error and issues no HTTP request; request
carries the HTTP request that is issued otherwise. -/
inductive CallOutcome (ρ : Type) where
  | immediateError : CallOutcome ρ
  | request : ρ → CallOutcome ρ
deriving DecidableEq, Repr

/-- DialDevice.getAppInfoXml: issues a GET against
applicationUrl/appName unless the application URL is falsy or the app
name is empty. -/
def getAppInfoXmlCall (applicationUrl : Option String) (appName : String) :
    CallOutcome String :=
  match applicationUrl with
  | some u =>
    if u ≠ "" ∧ appName ≠ "" then .request (u ++ "/" ++ appName)
    else .immediateError
  | none => .immediateError

/-- The POST request issued by DialDevice.launchApp. The url field keeps
the full request URL (host, port and path are derived from it by the URL
parser in the source). -/
structure LaunchHttpRequest where
  url : String
  method : String
  contentType : String
  contentLength : Nat
  body : Option String
deriving DecidableEq, Repr

/-- DialDevice.launchApp up to the point where the request is issued:
guard on application URL and app name, then build the POST request with
CONTENT-TYPE contentType || text/plain; charset=utf-8 and CONTENT-LENGTH
(launchData && Buffer.byteLength(launchData)) || 0, writing the body only
when launchData is truthy. -/
def launchAppCall (applicationUrl : Option String) (appName : String)
    (launchData : Option String) (contentType : Option String) :
    CallOutcome LaunchHttpRequest :=
  match applicationUrl with
  | some u =>
    if u ≠ "" ∧ appName ≠ "" then
      .request
        { url := u ++ "/" ++ appName
          method := "POST"
          contentType :=
            match contentType with
            | some ct => if ct ≠ "" then ct else "text/plain; charset=\"utf-8\""
            | none => "text/plain; charset=\"utf-8\""
          contentLength :=
            match launchData with
            | some d => if d ≠ "" then d.utf8ByteSize else 0
            | none => 0
          body :=
            match launchData with
            | some d => if d ≠ "" then some d else none
            | none => none }
    else .immediateError
  | none => .immediateError

/-- How DialDevice.launchApp translates the HTTP response: a status of at
least 400 yields an error carrying that status, otherwise the accumulated
response body is returned verbatim. -/
def launchAppResult (statusCode : Nat) (respBody : String) :
    Except Nat String :=
  if statusCode ≥ 400 then .error statusCode else .ok respBody

/-- DialDevice.stopApp: issues a DELETE against
applicationUrl/appName/pid unless the application URL is falsy or the app
name or pid is empty. -/
def stopAppCall (applicationUrl : Option String) (appName pid : String) :
    CallOutcome String :=
  match applicationUrl with
  | some u =>
    if u ≠ "" ∧ appName ≠ "" ∧ pid ≠ "" then
      .request (u ++ "/" ++ appName ++ "/" ++ pid)
    else .immediateError
  | none => .immediateError

-- ===========================================================================
-- Theorems
-- ===========================================================================

theorem lookupJs_setJs_self (l : JsObj) (k : String) (v : JsVal) :
    lookupJs (setJs l k v) k = some v := by
  induction l with
  | nil => simp [setJs, lookupJs]
  | cons hd tl ih =>
    by_cases h : hd.1 = k
    · simp [setJs, h, lookupJs]
    · simp [setJs, h, lookupJs, ih]

theorem lookupJs_setJs_ne (l : JsObj) (k k' : String) (v : JsVal)
    (h : k ≠ k') : lookupJs (setJs l k v) k' = lookupJs l k' := by
  induction l with
  | nil => simp [setJs, lookupJs, h]
  | cons hd tl ih =>
    by_cases hk : hd.1 = k
    · simp [setJs, hk, lookupJs, h]
    · simp [setJs, hk, lookupJs, ih]

theorem lookupJs_mergeStep_ne (l : JsObj) (k k' : String) (v : JsVal)
    (h : k ≠ k') : lookupJs (mergeStep l k v) k' = lookupJs l k' := by
  unfold mergeStep
  cases hl : lookupJs l k with
  | none => exact lookupJs_setJs_ne l k k' v h
  | some w =>
    by_cases hw : w.truthy
    · simp [hw, lookupJs_setJs_ne l k k' w h]
    · simp [hw, lookupJs_setJs_ne l k k' v h]

theorem lookupJs_eq_none_of_not_mem (l : JsObj) (k : String)
    (h : k ∉ l.map Prod.fst) : lookupJs l k = none := by
  induction l with
  | nil => rfl
  | cons hd tl ih =>
    simp only [List.map_cons, List.mem_cons] at h
    push_neg at h
    simp [lookupJs, Ne.symm h.1, ih h.2]

theorem lookupJs_merge_not_mem (l extra : JsObj) (k : String)
    (h : k ∉ extra.map Prod.fst) :
    lookupJs (merge l extra) k = lookupJs l k := by
  induction extra generalizing l with
  | nil => rfl
  | cons hd tl ih =>
    simp only [List.map_cons, List.mem_cons] at h
    push_neg at h
    show lookupJs (merge (mergeStep l hd.1 hd.2) tl) k = lookupJs l k
    rw [ih _ h.2, lookupJs_mergeStep_ne _ _ _ _ (Ne.symm h.1)]

/-- Master description of a merged lookup, assuming obj2 has unique keys
(as a JavaScript object always does): a truthy existing value wins; a falsy
existing value is replaced by the obj2 value when one exists; an absent key
gets the obj2 value. -/
theorem lookupJs_merge (base extra : JsObj) (k : String)
    (hnd : (extra.map Prod.fst).Nodup) :
    lookupJs (merge base extra) k =
      match lookupJs base k with
      | some w => if w.truthy then some w else some ((lookupJs extra k).getD w)
      | none => lookupJs extra k := by
  induction extra generalizing base with
  | nil =>
    cases h : lookupJs base k with
    | none => simp [merge, h, lookupJs]
    | some w => simp only [merge, List.foldl_nil, h, lookupJs]; split <;> simp
  | cons hd tl ih =>
    obtain ⟨k₁, v₁⟩ := hd
    simp only [List.map_cons, List.nodup_cons] at hnd
    show lookupJs (merge (mergeStep base k₁ v₁) tl) k = _
    by_cases hk : k₁ = k
    · subst hk
      have htl : lookupJs tl k₁ = none := lookupJs_eq_none_of_not_mem tl k₁ hnd.1
      rw [lookupJs_merge_not_mem _ _ _ hnd.1]
      unfold mergeStep
      cases hb : lookupJs base k₁ with
      | none => simp [lookupJs_setJs_self, lookupJs]
      | some w =>
        by_cases hw : w.truthy
        · simp [hw, lookupJs_setJs_self, hb]
        · simp [hw, lookupJs_setJs_self, lookupJs]
    · rw [ih _ hnd.2, lookupJs_mergeStep_ne _ _ _ _ hk]
      have : lookupJs ((k₁, v₁) :: tl) k = lookupJs tl k := by
        simp [lookupJs, hk]
      rw [this]

/-- Preservation of truthy base entries through a merge, without any
uniqueness assumption on the extra headers. -/
theorem lookupJs_merge_truthy (base extra : JsObj) (k : String) (w : JsVal)
    (hb : lookupJs base k = some w) (hw : w.truthy) :
    lookupJs (merge base extra) k = some w := by
  induction extra generalizing base with
  | nil => exact hb
  | cons hd tl ih =>
    show lookupJs (merge (mergeStep base hd.1 hd.2) tl) k = some w
    apply ih
    by_cases hk : hd.1 = k
    · subst hk
      unfold mergeStep
      rw [hb]
      simp [hw, lookupJs_setJs_self]
    · rw [lookupJs_mergeStep_ne _ _ _ _ hk, hb]

theorem ackCloses_of_length_lt (l : List (Fin 5)) :
    ∀ r : Int, (l.length : Int) < r → ackCloses l r = 0 := by
  induction l with
  | nil => intro r _; rfl
  | cons a rest ih =>
    intro r hr
    simp only [List.length_cons] at hr
    have h1 : ¬ (r - 1 ≤ 0) := by push_cast at hr; omega
    have h2 : (rest.length : Int) < r - 1 := by push_cast at hr ⊢; omega
    simp [ackCloses, h1, ih (r - 1) h2]

theorem ackCloses_of_length_eq (l : List (Fin 5)) :
    ∀ r : Int, 0 < r → (l.length : Int) = r → ackCloses l r = 1 := by
  induction l with
  | nil => intro r hr h; simp at h; omega
  | cons a rest ih =>
    intro r hr h
    simp only [List.length_cons] at h
    by_cases hlast : r - 1 ≤ 0
    · have hr1 : r = 1 := by omega
      have hlen : rest.length = 0 := by push_cast at h; omega
      have : rest = [] := List.eq_nil_of_length_eq_zero hlen
      subst this
      simp [ackCloses, hlast]
    · have h0 : (0 : Int) < r - 1 := by omega
      have h2 : (rest.length : Int) = r - 1 := by push_cast at h ⊢; omega
      simp [ackCloses, hlast, ih (r - 1) h0 h2]

-- String helpers for distinguishing the uuid-specific service type --------

theorem strDataAppend (s t : String) : (s ++ t).data = s.data ++ t.data :=
  String.data_append s t

theorem uuidSt_ne_service (uuid : String) :
    "uuid:" ++ uuid ≠ "urn:dial-multiscreen-org:service:dial:1" := by
  intro he
  have hd : ("uuid:" ++ uuid).data =
      ("urn:dial-multiscreen-org:service:dial:1" : String).data := by rw [he]
  rw [strDataAppend] at hd
  have hd' : 'u' :: 'u' :: 'i' :: 'd' :: ':' :: uuid.data =
      ("urn:dial-multiscreen-org:service:dial:1" : String).data := hd
  injection hd' with h1 h2
  injection h2 with h3 h4
  exact absurd h3 (by decide)

theorem uuidSt_ne_device (uuid : String) :
    "uuid:" ++ uuid ≠ "urn:dial-multiscreen-org:device:dial:1" := by
  intro he
  have hd : ("uuid:" ++ uuid).data =
      ("urn:dial-multiscreen-org:device:dial:1" : String).data := by rw [he]
  rw [strDataAppend] at hd
  have hd' : 'u' :: 'u' :: 'i' :: 'd' :: ':' :: uuid.data =
      ("urn:dial-multiscreen-org:device:dial:1" : String).data := hd
  injection hd' with h1 h2
  injection h2 with h3 h4
  exact absurd h3 (by decide)

theorem uuidSt_ne_rootdevice (uuid : String) :
    "uuid:" ++ uuid ≠ "upnp:rootdevice" := by
  intro he
  have hd : ("uuid:" ++ uuid).data = ("upnp:rootdevice" : String).data := by
    rw [he]
  rw [strDataAppend] at hd
  have hd' : 'u' :: 'u' :: 'i' :: 'd' :: ':' :: uuid.data =
      ("upnp:rootdevice" : String).data := hd
  injection hd' with h1 h2
  injection h2 with h3 h4
  exact absurd h3 (by decide)

theorem uuidSt_ne_all (uuid : String) : "uuid:" ++ uuid ≠ "ssdp:all" := by
  intro he
  have hd : ("uuid:" ++ uuid).data = ("ssdp:all" : String).data := by rw [he]
  rw [strDataAppend] at hd
  have hd' : 'u' :: 'u' :: 'i' :: 'd' :: ':' :: uuid.data =
      ("ssdp:all" : String).data := hd
  injection hd' with h1 h2
  exact absurd h1 (by decide)

theorem append_ne_empty_of_left_pos (s t : String) (h : 0 < s.length) :
    s ++ t ≠ "" := by
  intro he
  have hl := congrArg String.length he
  rw [String.length_append] at hl
  have h0 : ("" : String).length = 0 := rfl
  omega

theorem uuidSt_ne_empty (uuid : String) : "uuid:" ++ uuid ≠ "" :=
  append_ne_empty_of_left_pos "uuid:" uuid (by decide)

theorem stopServiceTypes_nodup (uuid : String) :
    (stopServiceTypes uuid).Nodup := by
  have h1 := uuidSt_ne_service uuid
  have h2 := uuidSt_ne_device uuid
  have h3 := uuidSt_ne_rootdevice uuid
  have h4 := uuidSt_ne_all uuid
  simp only [stopServiceTypes, List.nodup_cons, List.mem_cons,
    List.mem_singleton, List.not_mem_nil, or_false, List.nodup_nil, and_true]
  refine ⟨?_, ?_, ?_, ?_⟩
  · push_neg
    exact ⟨by decide, by decide, by decide, Ne.symm h1⟩
  · push_neg
    exact ⟨by decide, by decide, Ne.symm h2⟩
  · push_neg
    exact ⟨by decide, Ne.symm h3⟩
  · exact ⟨Ne.symm h4, not_false⟩

theorem stopServiceTypes_ne_empty (uuid : String) :
    ∀ st ∈ stopServiceTypes uuid, st ≠ "" := by
  intro st hst
  simp only [stopServiceTypes, List.mem_cons, List.mem_singleton,
    List.not_mem_nil, or_false] at hst
  rcases hst with h | h | h | h | h <;> subst h
  · decide
  · decide
  · decide
  · decide
  · exact uuidSt_ne_empty uuid

theorem stopByebyeMsg_NT (uuid location : String) (extra : JsObj)
    (st : String) (hst : st ≠ "") :
    lookupJs (stopByebyeMsg uuid location extra st) "NT" = some (.str st) := by
  apply lookupJs_merge_truthy
  · rfl
  · simpa [JsVal.truthy] using hst

theorem stopByebyeMsg_USN (uuid location : String) (extra : JsObj)
    (st : String) :
    lookupJs (stopByebyeMsg uuid location extra st) "USN" =
      some (.str ("uuid:" ++ uuid ++ "::" ++ st)) := by
  apply lookupJs_merge_truthy
  · rfl
  · have : ("uuid:" ++ uuid) ++ "::" ++ st ≠ "" := by
      apply append_ne_empty_of_left_pos
      rw [String.length_append, String.length_append]
      have : (0 : Nat) < "uuid:".length := by decide
      omega
    simpa [JsVal.truthy] using this

/-- C6 counterexample: the claim says merging preserves every key already
present in the base map with its existing value, but the merge helper
overwrites a key whose existing value is falsy (here the empty string), so
the base entry NT = "" is replaced by the extra value "x". -/
theorem merge_falsy_overwrite_counterexample :
    lookupJs (merge [("NT", JsVal.str "")] [("NT", JsVal.str "x")]) "NT"
        = some (JsVal.str "x")
    ∧ lookupJs [("NT", JsVal.str "")] "NT" = some (JsVal.str "")
    ∧ JsVal.str "x" ≠ JsVal.str "" := by decide

/-- C6 amended: merging the caller extra headers into the base headers
preserves every key present in the base map with a truthy value; a key
absent from the base map receives the extra-header value; and a key whose
base value is falsy (empty string, 0 or false) is overwritten by the
extra-header value when the extra map has that key (and kept otherwise). -/
theorem merge_truthy_precedence (base extra : JsObj) (k : String) (w : JsVal)
    (hnd : (extra.map Prod.fst).Nodup) :
    (lookupJs base k = some w → w.truthy = true →
      lookupJs (merge base extra) k = some w)
    ∧ (lookupJs base k = none →
      lookupJs (merge base extra) k = lookupJs extra k)
    ∧ (lookupJs base k = some w → w.truthy = false →
      lookupJs (merge base extra) k = some ((lookupJs extra k).getD w)) := by
  refine ⟨fun hb hw => lookupJs_merge_truthy base extra k w hb hw, ?_, ?_⟩
  · intro hb
    rw [lookupJs_merge base extra k hnd, hb]
  · intro hb hw
    rw [lookupJs_merge base extra k hnd, hb]
    simp [hw]

/-- C6 witness: the amended theorem applied at a concrete base and extra
map, where the truthy base value survives the merge. -/
theorem merge_truthy_precedence_witness :
    (([("NT", JsVal.str "b"), ("X", JsVal.num 1)] : JsObj).map Prod.fst).Nodup
    ∧ lookupJs (merge [("NT", JsVal.str "a")]
        [("NT", JsVal.str "b"), ("X", JsVal.num 1)]) "NT"
      = some (JsVal.str "a") :=
  ⟨by decide,
   (merge_truthy_precedence [("NT", JsVal.str "a")]
      [("NT", JsVal.str "b"), ("X", JsVal.num 1)] "NT" (JsVal.str "a")
      (by decide)).1 (by decide) (by decide)⟩

/-- C2: Server.stop sends exactly one byebye per each of the five fixed
service types, each carrying USN uuid:{uuid}::{serviceType}, and the done
countdown invokes the transport close exactly once, only after all five
acknowledgments have arrived, for every arrival order of the five
acknowledgments. -/
theorem serverStop_withdrawals_and_barrier (uuid location : String)
    (extra : JsObj) (acks : List (Fin 5))
    (hlen : acks.length = 5) (_hnd : acks.Nodup) :
    (stopByebyes uuid location extra).length = 5
    ∧ (∀ st ∈ stopServiceTypes uuid,
        ((stopByebyes uuid location extra).filter
          (fun m => decide (lookupJs m "NT" = some (.str st)))).length = 1)
    ∧ (∀ m ∈ stopByebyes uuid location extra, ∃ st,
        st ∈ stopServiceTypes uuid
        ∧ lookupJs m "NT" = some (.str st)
        ∧ lookupJs m "USN" = some (.str ("uuid:" ++ uuid ++ "::" ++ st)))
    ∧ ackCloses acks 5 = 1
    ∧ (∀ pre : List (Fin 5), pre.length < 5 → ackCloses pre 5 = 0) := by
  refine ⟨by simp [stopByebyes, stopServiceTypes], ?_, ?_, ?_, ?_⟩
  · intro st hst
    rw [stopByebyes, ← List.countP_eq_length_filter, List.countP_map]
    have hcongr : ∀ x ∈ stopServiceTypes uuid,
        (((fun m => decide (lookupJs m "NT" = some (.str st)))
            ∘ stopByebyeMsg uuid location extra) x = true) ↔ ((x == st) = true) := by
      intro x hx
      have hx' := stopServiceTypes_ne_empty uuid x hx
      simp only [Function.comp_apply,
        stopByebyeMsg_NT uuid location extra x hx']
      by_cases hxs : x = st <;> simp [hxs]
    rw [List.countP_congr hcongr]
    exact List.count_eq_one_of_mem (stopServiceTypes_nodup uuid) hst
  · intro m hm
    rw [stopByebyes] at hm
    obtain ⟨st, hst, rfl⟩ := List.mem_map.mp hm
    exact ⟨st, hst,
      stopByebyeMsg_NT uuid location extra st
        (stopServiceTypes_ne_empty uuid st hst),
      stopByebyeMsg_USN uuid location extra st⟩
  · exact ackCloses_of_length_eq acks 5 (by norm_num) (by exact_mod_cast hlen)
  · intro pre hpre
    exact ackCloses_of_length_lt pre 5 (by exact_mod_cast hpre)

/-- C2 witness: the theorem applied at a concrete uuid, location, extra
map and acknowledgment order. -/
theorem serverStop_withdrawals_and_barrier_witness :
    ([0, 1, 2, 3, 4] : List (Fin 5)).length = 5
    ∧ ([0, 1, 2, 3, 4] : List (Fin 5)).Nodup
    ∧ ackCloses [0, 1, 2, 3, 4] 5 = 1 :=
  ⟨by decide, by decide,
   (serverStop_withdrawals_and_barrier "abc" "http://loc" [] [0, 1, 2, 3, 4]
      (by decide) (by decide)).2.2.2.1⟩

/-- C1: when the app provider returns app info, the body is within the
size limit and the launch hook completes without error, the status is 201
exactly when the state inferred from the pre-launch app info is "stopped"
and 200 otherwise; the LOCATION header is set iff the hook returned a
non-empty pid, and then its value ends in /apps/{name}/{pid}; a hook error
yields 503. -/
theorem postAppsApp_launch_contract (a : AppInfo) (reqLength : Option Nat)
    (maxContentLength : Nat) (launchPid : Option String) (launchErr : Bool)
    (baseURL appName : String)
    (hsize : bodyTooLarge reqLength maxContentLength = false) :
    (launchErr = false →
      ((postAppsApp (some a) reqLength maxContentLength launchPid launchErr
          baseURL appName).1.status
        = if inferState a.state a.pid = "stopped" then 201 else 200)
      ∧ ((postAppsApp (some a) reqLength maxContentLength launchPid launchErr
          baseURL appName).1.location ≠ none
        ↔ ∃ p, launchPid = some p ∧ p ≠ "")
      ∧ (∀ p, launchPid = some p → p ≠ "" →
          ∃ pre, (postAppsApp (some a) reqLength maxContentLength launchPid
              launchErr baseURL appName).1.location
            = some (pre ++ "/apps/" ++ appName ++ "/" ++ p)))
    ∧ (launchErr = true →
      (postAppsApp (some a) reqLength maxContentLength launchPid launchErr
          baseURL appName).1.status = 503) := by
  constructor
  · intro herr
    subst herr
    refine ⟨?_, ?_, ?_⟩
    · cases launchPid with
      | none => simp [postAppsApp, hsize]
      | some p =>
        by_cases hp : p = "" <;> simp [postAppsApp, hsize, hp]
    · cases launchPid with
      | none => simp [postAppsApp, hsize]
      | some p =>
        by_cases hp : p = "" <;> simp [postAppsApp, hsize, hp]
    · intro p hp hpne
      subst hp
      exact ⟨baseURL, by simp [postAppsApp, hsize, hpne]⟩
  · intro herr
    subst herr
    simp [postAppsApp, hsize]

/-- C1 witness: a first launch of an app with no explicit state and no
pid, whose launch hook returns pid 42, reports 201. -/
theorem postAppsApp_launch_contract_witness :
    bodyTooLarge (some 3) 4096 = false
    ∧ ((postAppsApp (some ⟨"YouTube", none, none, some true, none, none⟩)
        (some 3) 4096 (some "42") false "http://h:3000/dial" "YouTube").1.status
      = if inferState none none = "stopped" then 201 else 200) :=
  ⟨by decide,
   ((postAppsApp_launch_contract ⟨"YouTube", none, none, some true, none, none⟩
      (some 3) 4096 (some "42") false "http://h:3000/dial" "YouTube"
      (by decide)).1 rfl).1⟩

/-- C3: when the recorded body length exceeds the configured maximum, a
known app yields 413 with the launch hook never invoked (the Bool in the
result), while an unknown app yields 404 because the existence check runs
first. -/
theorem postAppsApp_size_policy (appInfo : Option AppInfo)
    (l maxContentLength : Nat) (launchPid : Option String) (launchErr : Bool)
    (baseURL appName : String) (hover : l > maxContentLength) :
    (∀ a, appInfo = some a →
      postAppsApp appInfo (some l) maxContentLength launchPid launchErr
          baseURL appName
        = ({ status := 413, contentType := none, body := none,
             location := none }, false))
    ∧ (appInfo = none →
      postAppsApp appInfo (some l) maxContentLength launchPid launchErr
          baseURL appName
        = ({ status := 404, contentType := none, body := none,
             location := none }, false)) := by
  have htoo : bodyTooLarge (some l) maxContentLength = true := by
    simp [bodyTooLarge]
    omega
  constructor
  · intro a ha
    subst ha
    simp [postAppsApp, htoo]
  · intro ha
    subst ha
    simp [postAppsApp]

/-- C3 witness: an oversized body on a known app yields 413 without
invoking the launch hook. -/
theorem postAppsApp_size_policy_witness :
    5000 > 4096
    ∧ postAppsApp (some ⟨"YouTube", none, none, some true, none, none⟩)
        (some 5000) 4096 (some "42") false "http://h:3000/dial" "YouTube"
      = ({ status := 413, contentType := none, body := none,
           location := none }, false) :=
  ⟨by decide,
   (postAppsApp_size_policy (some ⟨"YouTube", none, none, some true, none, none⟩)
      5000 4096 (some "42") false "http://h:3000/dial" "YouTube"
      (by decide)).1 _ rfl⟩

/-- C4: GET /apps/:appName responds 404 iff the getApp hook reports the
app unknown; otherwise the response is 200 with an XML body whose state
element holds the inferred state: the explicit state when it is a
non-empty string, else "running" when a non-empty pid is present, else
"stopped". -/
theorem getAppsApp_state_contract (appInfo : Option AppInfo)
    (appName : String) :
    ((getAppsApp appInfo appName).status = 404 ↔ appInfo = none)
    ∧ (∀ a, appInfo = some a →
        (getAppsApp appInfo appName).status = 200
        ∧ (∃ pre suf, (getAppsApp appInfo appName).body
            = some (pre ++ "<state>" ++ inferState a.state a.pid
                ++ "</state>" ++ suf))
        ∧ (∀ s, a.state = some s → s ≠ "" → inferState a.state a.pid = s)
        ∧ ((a.state = none ∨ a.state = some "") →
            ∀ p, a.pid = some p → p ≠ "" → inferState a.state a.pid = "running")
        ∧ ((a.state = none ∨ a.state = some "") →
            (a.pid = none ∨ a.pid = some "") →
            inferState a.state a.pid = "stopped")) := by
  constructor
  · cases appInfo with
    | none => simp [getAppsApp]
    | some a => simp [getAppsApp]
  · intro a ha
    subst ha
    refine ⟨rfl, ?_, ?_, ?_, ?_⟩
    · exact ⟨appDescOpen _, appDescClose _, rfl⟩
    · intro s hs hsne
      simp [inferState, hs, hsne]
    · intro hstate p hp hpne
      rcases hstate with h | h <;>
        simp [inferState, inferFromPid, h, hp, hpne]
    · intro hstate hpid
      rcases hstate with h | h <;> rcases hpid with h2 | h2 <;>
        simp [inferState, inferFromPid, h, h2]

/-- C4 witness: an app with no explicit state and no pid renders state
"stopped" in a 200 response. -/
theorem getAppsApp_state_contract_witness :
    (getAppsApp (some ⟨"X", none, none, none, none, none⟩) "X").status = 200
    ∧ inferState (none : Option String) (none : Option String) = "stopped" :=
  ⟨((getAppsApp_state_contract (some ⟨"X", none, none, none, none, none⟩)
      "X").2 _ rfl).1,
   ((getAppsApp_state_contract (some ⟨"X", none, none, none, none, none⟩)
      "X").2 _ rfl).2.2.2.2 (Or.inl rfl) (Or.inl rfl)⟩

/-- C5: DELETE /apps/{name}/{pid} responds 404 for an unknown app; 405
when the allow-stop flag is not true, regardless of the pid; 400 when the
pid is absent; otherwise the stop hook is invoked and the status mirrors
its success boolean (200 on true, 400 on false). -/
theorem deleteAppsApp_contract (appInfo : Option AppInfo) (pid : String)
    (stopped : Bool) :
    (appInfo = none →
      deleteAppsApp appInfo pid stopped
        = ({ status := 404, contentType := none, body := none,
             location := none }, false))
    ∧ (∀ a, appInfo = some a → a.allowStop ≠ some true →
        (deleteAppsApp appInfo pid stopped).1.status = 405
        ∧ (deleteAppsApp appInfo pid stopped).2 = false)
    ∧ (∀ a, appInfo = some a → a.allowStop = some true → pid = "" →
        (deleteAppsApp appInfo pid stopped).1.status = 400
        ∧ (deleteAppsApp appInfo pid stopped).2 = false)
    ∧ (∀ a, appInfo = some a → a.allowStop = some true → pid ≠ "" →
        (deleteAppsApp appInfo pid stopped).1.status
          = (if stopped then 200 else 400)
        ∧ (deleteAppsApp appInfo pid stopped).2 = true) := by
  refine ⟨?_, ?_, ?_, ?_⟩
  · intro ha
    subst ha
    rfl
  · intro a ha hstop
    subst ha
    simp [deleteAppsApp, hstop]
  · intro a ha hstop hpid
    subst ha
    simp [deleteAppsApp, hstop, hpid]
  · intro a ha hstop hpid
    subst ha
    simp [deleteAppsApp, hstop, hpid]

/-- C5 witness: stopping a stoppable app with a matching pid and a
successful stop hook yields 200 with the hook invoked. -/
theorem deleteAppsApp_contract_witness :
    (deleteAppsApp (some ⟨"YouTube", some "running", some "42", some true,
        none, none⟩) "42" true).1.status = (if true then 200 else 400)
    ∧ (deleteAppsApp (some ⟨"YouTube", some "running", some "42", some true,
        none, none⟩) "42" true).2 = true :=
  (deleteAppsApp_contract (some ⟨"YouTube", some "running", some "42",
      some true, none, none⟩) "42" true).2.2.2 _ rfl rfl (by decide)

/-- C9: launchApp with a non-empty application URL and app name and no
content type issues a POST whose CONTENT-TYPE is exactly
text/plain; charset=utf-8 (with quotes around utf-8) and whose
CONTENT-LENGTH is the UTF-8 byte length of the payload (0 when the payload
is absent), for every payload; a response status below 400 yields the body
verbatim and a status of 400 or more yields an error carrying that
status. -/
theorem launchApp_contract (u appName : String) (launchData : Option String)
    (statusCode : Nat) (respBody : String)
    (hu : u ≠ "") (hn : appName ≠ "") :
    (∃ req : LaunchHttpRequest,
      launchAppCall (some u) appName launchData none = .request req
      ∧ req.contentType = "text/plain; charset=\"utf-8\""
      ∧ req.contentLength
          = (match launchData with
             | some d => d.utf8ByteSize
             | none => 0))
    ∧ (statusCode < 400 → launchAppResult statusCode respBody = .ok respBody)
    ∧ (statusCode ≥ 400 →
        launchAppResult statusCode respBody = .error statusCode) := by
  refine ⟨?_, ?_, ?_⟩
  · have hreq : launchAppCall (some u) appName launchData none
        = .request
          { url := u ++ "/" ++ appName
            method := "POST"
            contentType := "text/plain; charset=\"utf-8\""
            contentLength :=
              match launchData with
              | some d => if d ≠ "" then d.utf8ByteSize else 0
              | none => 0
            body :=
              match launchData with
              | some d => if d ≠ "" then some d else none
              | none => none } := by
      simp [launchAppCall, hu, hn]
    refine ⟨_, hreq, rfl, ?_⟩
    cases launchData with
    | none => rfl
    | some d =>
      by_cases hd : d = ""
      · subst hd
        rfl
      · simp [hd]
  · intro hlt
    simp [launchAppResult, Nat.not_le.mpr hlt]
  · intro hge
    simp [launchAppResult, hge]

/-- C9 witness: a multi-byte payload of two characters and three UTF-8
bytes gets content length 3, and byte length differs from character
count. -/
theorem launchApp_contract_witness :
    ("http://h:80/apps" ≠ "" ∧ "App" ≠ "")
    ∧ (∃ req : LaunchHttpRequest,
        launchAppCall (some "http://h:80/apps") "App" (some "aé") none
          = .request req
        ∧ req.contentType = "text/plain; charset=\"utf-8\""
        ∧ req.contentLength
            = (match (some "aé" : Option String) with
               | some d => d.utf8ByteSize
               | none => 0))
    ∧ "aé".utf8ByteSize = 3 ∧ "aé".length = 2 :=
  ⟨⟨by decide, by decide⟩,
   (launchApp_contract "http://h:80/apps" "App" (some "aé") 200 ""
      (by decide) (by decide)).1,
   by decide, by decide⟩

/-- C10: getAppInfoXml, launchApp and stopApp short-circuit with a single
callback invocation carrying a null result and an Error, and no HTTP
request, when the application URL is absent or the app name is empty (or,
for stopApp, the pid is empty). -/
theorem dialDevice_guard_contract (applicationUrl : Option String)
    (appName pid : String) (launchData contentType : Option String) :
    ((applicationUrl = none ∨ appName = "") →
      getAppInfoXmlCall applicationUrl appName = .immediateError
      ∧ launchAppCall applicationUrl appName launchData contentType
          = .immediateError)
    ∧ ((applicationUrl = none ∨ appName = "" ∨ pid = "") →
      stopAppCall applicationUrl appName pid = .immediateError) := by
  constructor
  · intro hcond
    rcases hcond with h | h
    · subst h
      exact ⟨rfl, rfl⟩
    · cases applicationUrl with
      | none => exact ⟨rfl, rfl⟩
      | some u => subst h; simp [getAppInfoXmlCall, launchAppCall]
  · intro hcond
    cases applicationUrl with
    | none => rfl
    | some u =>
      rcases hcond with h | h | h
      · exact absurd h (by simp)
      · subst h
        simp [stopAppCall]
      · subst h
        simp [stopAppCall]

/-- C10 witness: an absent application URL short-circuits all three
calls. -/
theorem dialDevice_guard_contract_witness :
    ((none : Option String) = none ∨ "App" = "")
    ∧ getAppInfoXmlCall none "App" = .immediateError
    ∧ stopAppCall none "App" "42" = .immediateError :=
  ⟨Or.inl rfl,
   ((dialDevice_guard_contract none "App" "42" none none).1 (Or.inl rfl)).1,
   (dialDevice_guard_contract none "App" "42" none none).2 (Or.inl rfl)⟩

/-- C7 counterexample: the claim requires a recording and a "found"
emission only when the announced service type matches one of the two
tracked types, but the transport "found" handler performs no type check:
a search reply whose ST is not tracked (and with no NT at all) is still
recorded and emitted. -/
theorem clientFound_no_type_check_counterexample :
    (onFound [] ⟨some "http://x", none, none, some "urn:other:service:1", none⟩).2
      = [.found "http://x"
          ⟨some "http://x", none, none, some "urn:other:service:1", none⟩]
    ∧ (onFound [] ⟨some "http://x", none, none, some "urn:other:service:1", none⟩).1
      = [("http://x",
          ⟨some "http://x", none, none, some "urn:other:service:1", none⟩)]
    ∧ "urn:other:service:1" ∉ trackedTypes
    ∧ (⟨some "http://x", none, none, some "urn:other:service:1", none⟩
        : SsdpHeaders).nt = none := by decide

/-- Characterization of onNotify on an alive notification with a tracked
NT: it records and emits iff the location is non-empty and unrecorded. -/
theorem onNotify_alive_eq (s : Services) (h : SsdpHeaders) (loc nt' : String)
    (hnt : h.nt = some nt') (htr : nt' ∈ trackedTypes)
    (hloc : h.location = some loc) (hnts : h.nts = some "ssdp:alive") :
    onNotify s h =
      if loc ≠ "" ∧ lookupSrv s loc = none then
        (s ++ [(loc, h)], [.found loc h])
      else (s, []) := by
  simp only [onNotify, hnt, hloc, hnts, if_pos htr]
  by_cases hc : loc ≠ "" ∧ lookupSrv s loc = none
  · rw [if_pos ⟨hc.1, trivial, hc.2⟩, if_pos hc]
  · have h1 : ¬(loc ≠ "" ∧ True ∧ lookupSrv s loc = none) := by
      intro hcc
      exact hc ⟨hcc.1, hcc.2.2⟩
    have h2 : ¬(loc ≠ "" ∧ (some "ssdp:alive" : Option String) = some "ssdp:byebye") := by
      simp
    rw [if_neg h1, if_neg h2, if_neg hc]

/-- Characterization of onNotify when the NT header is absent or not a
tracked type: the event is a no-op. -/
theorem onNotify_untracked_eq (s : Services) (h : SsdpHeaders)
    (hcond : h.nt = none ∨ ∃ nt', h.nt = some nt' ∧ nt' ∉ trackedTypes) :
    onNotify s h = (s, []) := by
  rcases hcond with hnt | ⟨nt', hnt, htr⟩
  · simp [onNotify, hnt]
  · simp [onNotify, hnt, htr]

/-- C7 amended: on a transport "found" event the Client records the
location and emits "found" iff a non-empty location is present and not
already recorded, with no service-type check; on a notify with
NTS=ssdp:alive it records and emits iff additionally the NT header is one
of the two tracked types; in every other case the recorded set is
unchanged and nothing is emitted. -/
theorem clientRecord_conditions (s : Services) (h : SsdpHeaders) :
    (h.location = none → onFound s h = (s, []) ∧ onNotify s h = (s, []))
    ∧ (∀ loc, h.location = some loc →
        ((onFound s h = (s ++ [(loc, h)], [.found loc h]))
          ↔ (loc ≠ "" ∧ lookupSrv s loc = none))
        ∧ (¬(loc ≠ "" ∧ lookupSrv s loc = none) → onFound s h = (s, []))
        ∧ (h.nts = some "ssdp:alive" →
            ((onNotify s h = (s ++ [(loc, h)], [.found loc h]))
              ↔ ((∃ nt', h.nt = some nt' ∧ nt' ∈ trackedTypes)
                  ∧ loc ≠ "" ∧ lookupSrv s loc = none))
            ∧ (¬((∃ nt', h.nt = some nt' ∧ nt' ∈ trackedTypes)
                  ∧ loc ≠ "" ∧ lookupSrv s loc = none)
                → onNotify s h = (s, [])))) := by
  constructor
  · intro hloc
    exact ⟨by simp [onFound, hloc],
      by cases hnt : h.nt <;> simp [onNotify, hnt, hloc]⟩
  · intro loc hloc
    refine ⟨?_, ?_, ?_⟩
    · constructor
      · intro heq
        by_cases hc : loc ≠ "" ∧ lookupSrv s loc = none
        · exact hc
        · rw [onFound, hloc] at heq
          simp only [hc, if_false] at heq
          have := congrArg Prod.snd heq
          simp at this
      · intro hc
        rw [onFound, hloc]
        simp [hc]
    · intro hc
      rw [onFound, hloc]
      simp only [hc, if_false]
    · intro hnts
      have hcase : h.nt = none
          ∨ (∃ nt', h.nt = some nt' ∧ nt' ∉ trackedTypes)
          ∨ (∃ nt', h.nt = some nt' ∧ nt' ∈ trackedTypes) := by
        cases hnt : h.nt with
        | none => exact Or.inl rfl
        | some nt' =>
          by_cases htr : nt' ∈ trackedTypes
          · exact Or.inr (Or.inr ⟨nt', rfl, htr⟩)
          · exact Or.inr (Or.inl ⟨nt', rfl, htr⟩)
      rcases hcase with hnt | ⟨nt', hnt, htr⟩ | ⟨nt', hnt, htr⟩
      · have hnoop := onNotify_untracked_eq s h (Or.inl hnt)
        constructor
        · rw [hnoop]
          constructor
          · intro heq
            have := congrArg Prod.snd heq
            simp at this
          · rintro ⟨⟨nt', hnt', _⟩, _, _⟩
            rw [hnt] at hnt'
            exact absurd hnt' (by simp)
        · intro _
          exact hnoop
      · have hnoop := onNotify_untracked_eq s h (Or.inr ⟨nt', hnt, htr⟩)
        constructor
        · rw [hnoop]
          constructor
          · intro heq
            have := congrArg Prod.snd heq
            simp at this
          · rintro ⟨⟨nt'', hnt'', htr''⟩, _, _⟩
            rw [hnt] at hnt''
            have : nt' = nt'' := by
              injection hnt''
            exact absurd htr'' (this ▸ htr)
        · intro _
          exact hnoop
      · have hchar := onNotify_alive_eq s h loc nt' hnt htr hloc hnts
        constructor
        · rw [hchar]
          constructor
          · intro heq
            by_cases hc : loc ≠ "" ∧ lookupSrv s loc = none
            · exact ⟨⟨nt', hnt, htr⟩, hc⟩
            · rw [if_neg hc] at heq
              have := congrArg Prod.snd heq
              simp at this
          · rintro ⟨_, hc⟩
            rw [if_pos hc]
        · intro hc
          rw [hchar, if_neg]
          intro hcc
          exact hc ⟨⟨nt', hnt, htr⟩, hcc⟩

/-- C7 witness: the amended theorem applied to a headers value with a
tracked NT, an unrecorded location and NTS=ssdp:alive records and emits
found. -/
theorem clientRecord_conditions_witness :
    onNotify []
        ⟨some "http://x", some "urn:dial-multiscreen-org:device:dial:1",
         some "ssdp:alive", none, none⟩
      = ([("http://x",
          ⟨some "http://x", some "urn:dial-multiscreen-org:device:dial:1",
           some "ssdp:alive", none, none⟩)],
         [.found "http://x"
          ⟨some "http://x", some "urn:dial-multiscreen-org:device:dial:1",
           some "ssdp:alive", none, none⟩]) :=
  (((clientRecord_conditions []
      ⟨some "http://x", some "urn:dial-multiscreen-org:device:dial:1",
       some "ssdp:alive", none, none⟩).2 "http://x" rfl).2.2 rfl).1.mpr
    ⟨⟨"urn:dial-multiscreen-org:device:dial:1", rfl, by decide⟩,
     by decide, rfl⟩

theorem lookupSrv_append_self (s : Services) (loc : String)
    (h : SsdpHeaders) (hn : lookupSrv s loc = none) :
    lookupSrv (s ++ [(loc, h)]) loc = some h := by
  induction s with
  | nil => simp [lookupSrv]
  | cons hd tl ih =>
    rw [lookupSrv] at hn
    by_cases hk : hd.1 = loc
    · rw [if_pos hk] at hn
      exact absurd hn (by simp)
    · rw [if_neg hk] at hn
      simp only [List.cons_append, lookupSrv, if_neg hk]
      exact ih hn

theorem lookupSrv_append_ne (s : Services) (loc loc' : String)
    (h : SsdpHeaders) (hne : loc ≠ loc') :
    lookupSrv (s ++ [(loc', h)]) loc = lookupSrv s loc := by
  induction s with
  | nil => simp [lookupSrv, Ne.symm hne]
  | cons hd tl ih =>
    by_cases hk : hd.1 = loc
    · simp [lookupSrv, hk]
    · simp only [List.cons_append, lookupSrv, if_neg hk]
      exact ih

theorem lookupSrv_remove_self (s : Services) (loc : String) :
    lookupSrv (removeSrv s loc) loc = none := by
  induction s with
  | nil => rfl
  | cons hd tl ih =>
    by_cases hk : hd.1 = loc
    · simp only [removeSrv, List.filter] at ih ⊢
      rw [hk]
      simp [ih]
    · simp only [removeSrv, List.filter] at ih ⊢
      have : (hd.1 != loc) = true := by
        simp [hk]
      simp only [this]
      rw [lookupSrv, if_neg hk]
      exact ih

theorem lookupSrv_remove_ne (s : Services) (loc loc' : String)
    (hne : loc ≠ loc') :
    lookupSrv (removeSrv s loc') loc = lookupSrv s loc := by
  induction s with
  | nil => rfl
  | cons hd tl ih =>
    by_cases hk : hd.1 = loc'
    · simp only [removeSrv, List.filter] at ih ⊢
      have : (hd.1 != loc') = false := by
        simp [hk]
      simp only [this]
      rw [lookupSrv, if_neg (by rw [hk]; exact Ne.symm hne)]
      exact ih
    · simp only [removeSrv, List.filter] at ih ⊢
      have : (hd.1 != loc') = true := by
        simp [hk]
      simp only [this]
      rw [lookupSrv, lookupSrv]
      by_cases hkl : hd.1 = loc
      · rw [if_pos hkl, if_pos hkl]
      · rw [if_neg hkl, if_neg hkl]
        exact ih

theorem recordedInd_of_none (s : Services) (loc : String)
    (h : lookupSrv s loc = none) : recordedInd s loc = 0 := by
  simp [recordedInd, h]

theorem recordedInd_of_some (s : Services) (loc : String) (v : SsdpHeaders)
    (h : lookupSrv s loc = some v) : recordedInd s loc = 1 := by
  simp [recordedInd, h]

theorem recordedInd_le_one (s : Services) (loc : String) :
    recordedInd s loc ≤ 1 := by
  cases h : lookupSrv s loc <;> simp [recordedInd, h]

theorem countFound_append (loc : String) (a b : List ClientEvent) :
    countFound loc (a ++ b) = countFound loc a + countFound loc b := by
  simp [countFound, List.filter_append]

theorem countDisappear_append (loc : String) (a b : List ClientEvent) :
    countDisappear loc (a ++ b)
      = countDisappear loc a + countDisappear loc b := by
  simp [countDisappear, List.filter_append]

theorem countFound_found (loc l : String) (h : SsdpHeaders) :
    countFound loc [ClientEvent.found l h] = if l = loc then 1 else 0 := by
  by_cases he : l = loc
  · simp [countFound, List.filter, he]
  · have hb : (l == loc) = false := by
      simp [he]
    simp [countFound, List.filter, hb, he]

theorem countFound_disappear (loc l : String) (h : SsdpHeaders) :
    countFound loc [ClientEvent.disappear l h] = 0 := by
  simp [countFound, List.filter]

theorem countDisappear_found (loc l : String) (h : SsdpHeaders) :
    countDisappear loc [ClientEvent.found l h] = 0 := by
  simp [countDisappear, List.filter]

theorem countDisappear_disappear (loc l : String) (h : SsdpHeaders) :
    countDisappear loc [ClientEvent.disappear l h]
      = if l = loc then 1 else 0 := by
  by_cases he : l = loc
  · simp [countDisappear, List.filter, he]
  · have hb : (l == loc) = false := by
      simp [he]
    simp [countDisappear, List.filter, hb, he]

theorem countFound_nil (loc : String) : countFound loc [] = 0 := rfl

theorem countDisappear_nil (loc : String) : countDisappear loc [] = 0 := rfl

theorem recordedInd_congr (s s' : Services) (loc : String)
    (h : lookupSrv s loc = lookupSrv s' loc) :
    recordedInd s loc = recordedInd s' loc := by
  simp [recordedInd, h]

/-- Characterization of onNotify on a byebye notification with a tracked
NT: a recorded location is removed and "disappear" carries the stored
headers; an unrecorded or empty location is a no-op. -/
theorem onNotify_byebye_eq (s : Services) (h : SsdpHeaders) (loc nt' : String)
    (hnt : h.nt = some nt') (htr : nt' ∈ trackedTypes)
    (hloc : h.location = some loc) (hnts : h.nts = some "ssdp:byebye") :
    onNotify s h =
      if loc ≠ "" then
        match lookupSrv s loc with
        | some stored => (removeSrv s loc, [.disappear loc stored])
        | none => (s, [])
      else (s, []) := by
  simp only [onNotify, hnt, hloc, hnts, if_pos htr]
  have h1 : ¬(loc ≠ "" ∧ (some "ssdp:byebye" : Option String) = some "ssdp:alive"
      ∧ lookupSrv s loc = none) := by
    simp
  rw [if_neg h1]
  by_cases hl : loc ≠ ""
  · rw [if_pos ⟨hl, trivial⟩, if_pos hl]
  · rw [if_neg (fun hcc => hl hcc.1), if_neg hl]

/-- Characterization of onNotify with a tracked NT but no location: a
no-op. -/
theorem onNotify_noloc_eq (s : Services) (h : SsdpHeaders) (nt' : String)
    (hnt : h.nt = some nt') (hloc : h.location = none) :
    onNotify s h = (s, []) := by
  by_cases htr : nt' ∈ trackedTypes <;> simp [onNotify, hnt, hloc, htr]

/-- Characterization of onNotify with a tracked NT and a location but an
NTS that is neither alive nor byebye: a no-op. -/
theorem onNotify_other_eq (s : Services) (h : SsdpHeaders) (loc nt' : String)
    (hnt : h.nt = some nt') (htr : nt' ∈ trackedTypes)
    (hloc : h.location = some loc)
    (h1 : h.nts ≠ some "ssdp:alive") (h2 : h.nts ≠ some "ssdp:byebye") :
    onNotify s h = (s, []) := by
  simp only [onNotify, hnt, hloc, if_pos htr]
  rw [if_neg (fun hcc => h1 hcc.2.1), if_neg (fun hcc => h2 hcc.2)]

/-- Characterization of onFound: record and emit iff the location is
non-empty and unrecorded. -/
theorem onFound_eq (s : Services) (h : SsdpHeaders) (loc : String)
    (hloc : h.location = some loc) :
    onFound s h =
      if loc ≠ "" ∧ lookupSrv s loc = none then
        (s ++ [(loc, h)], [.found loc h])
      else (s, []) := by
  simp only [onFound, hloc]

/-- Per-step balance: for a non-refresh input, the found count plus the
prior recorded indicator equals the disappear count plus the posterior
recorded indicator, for every location. -/
theorem clientStep_balance (s : Services) (e : ClientInput) (loc : String)
    (hne : e ≠ ClientInput.refresh) :
    countFound loc (clientStep s e).2 + recordedInd s loc
      = countDisappear loc (clientStep s e).2
        + recordedInd (clientStep s e).1 loc := by
  have hrecord : ∀ (l : String) (h : SsdpHeaders),
      l ≠ "" → lookupSrv s l = none →
      countFound loc [ClientEvent.found l h] + recordedInd s loc
        = countDisappear loc [ClientEvent.found l h]
          + recordedInd (s ++ [(l, h)]) loc := by
    intro l h hl hrec
    by_cases hll : l = loc
    · subst hll
      rw [countFound_found, if_pos rfl, countDisappear_found,
        recordedInd_of_none s l hrec,
        recordedInd_of_some _ _ h (lookupSrv_append_self s l h hrec)]
    · rw [countFound_found, if_neg hll, countDisappear_found,
        recordedInd_congr (s ++ [(l, h)]) s loc
          (lookupSrv_append_ne s loc l h (Ne.symm hll))]
  have hremove : ∀ (l : String) (stored : SsdpHeaders),
      lookupSrv s l = some stored →
      countFound loc [ClientEvent.disappear l stored] + recordedInd s loc
        = countDisappear loc [ClientEvent.disappear l stored]
          + recordedInd (removeSrv s l) loc := by
    intro l stored hrec
    by_cases hll : l = loc
    · subst hll
      rw [countFound_disappear, countDisappear_disappear, if_pos rfl,
        recordedInd_of_some s l stored hrec,
        recordedInd_of_none _ _ (lookupSrv_remove_self s l)]
    · rw [countFound_disappear, countDisappear_disappear, if_neg hll,
        recordedInd_congr (removeSrv s l) s loc
          (lookupSrv_remove_ne s loc l (Ne.symm hll))]
  cases e with
  | refresh => exact absurd rfl hne
  | found h =>
    show countFound loc (onFound s h).2 + recordedInd s loc
      = countDisappear loc (onFound s h).2 + recordedInd (onFound s h).1 loc
    cases hloc : h.location with
    | none =>
      have hof : onFound s h = (s, []) := by
        rw [onFound, hloc]
      rw [hof, countFound_nil, countDisappear_nil]
    | some l =>
      rw [onFound_eq s h l hloc]
      by_cases hc : l ≠ "" ∧ lookupSrv s l = none
      · rw [if_pos hc]
        exact hrecord l h hc.1 hc.2
      · rw [if_neg hc, countFound_nil, countDisappear_nil]
  | notify h =>
    show countFound loc (onNotify s h).2 + recordedInd s loc
      = countDisappear loc (onNotify s h).2
        + recordedInd (onNotify s h).1 loc
    cases hnt : h.nt with
    | none =>
      rw [onNotify_untracked_eq s h (Or.inl hnt), countFound_nil,
        countDisappear_nil]
    | some nt' =>
      by_cases htr : nt' ∈ trackedTypes
      · cases hloc : h.location with
        | none =>
          rw [onNotify_noloc_eq s h nt' hnt hloc, countFound_nil,
            countDisappear_nil]
        | some l =>
          by_cases halive : h.nts = some "ssdp:alive"
          · rw [onNotify_alive_eq s h l nt' hnt htr hloc halive]
            by_cases hc : l ≠ "" ∧ lookupSrv s l = none
            · rw [if_pos hc]
              exact hrecord l h hc.1 hc.2
            · rw [if_neg hc, countFound_nil, countDisappear_nil]
          · by_cases hbye : h.nts = some "ssdp:byebye"
            · rw [onNotify_byebye_eq s h l nt' hnt htr hloc hbye]
              by_cases hl : l ≠ ""
              · rw [if_pos hl]
                cases hrec : lookupSrv s l with
                | none => rw [countFound_nil, countDisappear_nil]
                | some stored => exact hremove l stored hrec
              · rw [if_neg hl, countFound_nil, countDisappear_nil]
            · rw [onNotify_other_eq s h l nt' hnt htr hloc halive hbye,
                countFound_nil, countDisappear_nil]
      · rw [onNotify_untracked_eq s h (Or.inr ⟨nt', hnt, htr⟩),
          countFound_nil, countDisappear_nil]

/-- Run-level balance: over any refresh-free input sequence, the number of
found emissions for a location plus the initial recorded indicator equals
the number of disappear emissions plus the final recorded indicator. -/
theorem clientRun_balance (es : List ClientInput) :
    ∀ (s : Services) (loc : String), ClientInput.refresh ∉ es →
    countFound loc (clientRun s es).2 + recordedInd s loc
      = countDisappear loc (clientRun s es).2
        + recordedInd (clientRun s es).1 loc := by
  induction es with
  | nil =>
    intro s loc _
    rw [clientRun, countFound_nil, countDisappear_nil]
  | cons e rest ih =>
    intro s loc hnr
    simp only [List.mem_cons, not_or] at hnr
    have hstep := clientStep_balance s e loc (Ne.symm hnr.1)
    have hrest := ih (clientStep s e).1 loc hnr.2
    have hrun : clientRun s (e :: rest)
        = ((clientRun (clientStep s e).1 rest).1,
           (clientStep s e).2 ++ (clientRun (clientStep s e).1 rest).2) := rfl
    rw [hrun]
    simp only [countFound_append, countDisappear_append]
    omega

/-- C8 counterexample: the claim quantifies over every sequence of Client
operations and transport events, but refresh() clears the recorded set
without emitting "disappear", so the same location can be emitted as
"found" twice with no intervening "disappear" for it. -/
theorem clientRefresh_counterexample :
    countFound "http://x"
        (clientRun []
          [ClientInput.notify ⟨some "http://x",
              some "urn:dial-multiscreen-org:device:dial:1",
              some "ssdp:alive", none, none⟩,
           ClientInput.refresh,
           ClientInput.notify ⟨some "http://x",
              some "urn:dial-multiscreen-org:device:dial:1",
              some "ssdp:alive", none, none⟩]).2 = 2
    ∧ countDisappear "http://x"
        (clientRun []
          [ClientInput.notify ⟨some "http://x",
              some "urn:dial-multiscreen-org:device:dial:1",
              some "ssdp:alive", none, none⟩,
           ClientInput.refresh,
           ClientInput.notify ⟨some "http://x",
              some "urn:dial-multiscreen-org:device:dial:1",
              some "ssdp:alive", none, none⟩]).2 = 0 := by decide

/-- C8 amended: over every refresh-free sequence of transport events from
an initially empty record, "found" is emitted at most once per location
until a "disappear" for that same location is emitted (refresh() clears
the recorded set without emitting "disappear", so the guarantee restarts
after each refresh); "disappear" is only emitted for a currently recorded
location, carries the headers stored for it, and removes the entry; a
byebye for an unrecorded location or non-tracked type emits nothing. -/
theorem clientRun_found_disappear_invariant (es : List ClientInput)
    (loc : String) (hnr : ClientInput.refresh ∉ es) :
    (countFound loc (clientRun [] es).2
      = countDisappear loc (clientRun [] es).2
        + recordedInd (clientRun [] es).1 loc)
    ∧ countFound loc (clientRun [] es).2
        ≤ countDisappear loc (clientRun [] es).2 + 1
    ∧ countDisappear loc (clientRun [] es).2
        ≤ countFound loc (clientRun [] es).2
    ∧ (∀ (s : Services) (h : SsdpHeaders) (l : String)
          (stored : SsdpHeaders),
        (onNotify s h).2 = [ClientEvent.disappear l stored] →
        lookupSrv s l = some stored ∧ lookupSrv (onNotify s h).1 l = none)
    ∧ (∀ (s : Services) (h : SsdpHeaders) (l : String),
        h.nts = some "ssdp:byebye" → h.location = some l →
        (lookupSrv s l = none ∨ h.nt = none
          ∨ (∀ nt', h.nt = some nt' → nt' ∉ trackedTypes)) →
        onNotify s h = (s, []))
    ∧ (∀ s : Services, clientStep s ClientInput.refresh = ([], [])) := by
  have hbal := clientRun_balance es [] loc hnr
  have hind0 : recordedInd [] loc = 0 := rfl
  have hle := recordedInd_le_one (clientRun [] es).1 loc
  refine ⟨by omega, by omega, by omega, ?_, ?_, fun _ => rfl⟩
  · intro s h l stored hemit
    cases hnt : h.nt with
    | none =>
      rw [onNotify_untracked_eq s h (Or.inl hnt)] at hemit
      simp at hemit
    | some nt' =>
      by_cases htr : nt' ∈ trackedTypes
      · cases hloc : h.location with
        | none =>
          rw [onNotify_noloc_eq s h nt' hnt hloc] at hemit
          simp at hemit
        | some loc2 =>
          by_cases halive : h.nts = some "ssdp:alive"
          · rw [onNotify_alive_eq s h loc2 nt' hnt htr hloc halive] at hemit
            by_cases hc : loc2 ≠ "" ∧ lookupSrv s loc2 = none
            · rw [if_pos hc] at hemit
              simp at hemit
            · rw [if_neg hc] at hemit
              simp at hemit
          · by_cases hbye : h.nts = some "ssdp:byebye"
            · rw [onNotify_byebye_eq s h loc2 nt' hnt htr hloc hbye]
                at hemit ⊢
              by_cases hl : loc2 ≠ ""
              · rw [if_pos hl] at hemit ⊢
                cases hrec : lookupSrv s loc2 with
                | none =>
                  simp only [hrec] at hemit
                  simp at hemit
                | some stored2 =>
                  simp only [hrec] at hemit ⊢
                  simp only [List.cons.injEq, and_true] at hemit
                  injection hemit with h1 h2
                  subst h1
                  subst h2
                  exact ⟨hrec, lookupSrv_remove_self s loc2⟩
              · rw [if_neg hl] at hemit
                simp at hemit
            · rw [onNotify_other_eq s h loc2 nt' hnt htr hloc halive hbye]
                at hemit
              simp at hemit
      · rw [onNotify_untracked_eq s h (Or.inr ⟨nt', hnt, htr⟩)] at hemit
        simp at hemit
  · intro s h l hbye hloc hcond
    rcases hcond with hrec | hnt | hun
    · cases hnt : h.nt with
      | none => exact onNotify_untracked_eq s h (Or.inl hnt)
      | some nt' =>
        by_cases htr : nt' ∈ trackedTypes
        · rw [onNotify_byebye_eq s h l nt' hnt htr hloc hbye]
          by_cases hl : l ≠ ""
          · rw [if_pos hl, hrec]
          · rw [if_neg hl]
        · exact onNotify_untracked_eq s h (Or.inr ⟨nt', hnt, htr⟩)
    · exact onNotify_untracked_eq s h (Or.inl hnt)
    · cases hnt : h.nt with
      | none => exact onNotify_untracked_eq s h (Or.inl hnt)
      | some nt' =>
        exact onNotify_untracked_eq s h (Or.inr ⟨nt', hnt, hun nt' hnt⟩)

/-- C8 witness: the amended invariant applied to a refresh-free run of one
alive notification: one found emission, no disappear, location recorded at
the end. -/
theorem clientRun_found_disappear_invariant_witness :
    (ClientInput.refresh
      ∉ [ClientInput.notify (⟨some "http://x",
          some "urn:dial-multiscreen-org:device:dial:1",
          some "ssdp:alive", none, none⟩ : SsdpHeaders)])
    ∧ countFound "http://x"
        (clientRun []
          [ClientInput.notify ⟨some "http://x",
              some "urn:dial-multiscreen-org:device:dial:1",
              some "ssdp:alive", none, none⟩]).2
      = countDisappear "http://x"
          (clientRun []
            [ClientInput.notify ⟨some "http://x",
                some "urn:dial-multiscreen-org:device:dial:1",
                some "ssdp:alive", none, none⟩]).2
        + recordedInd
            (clientRun []
              [ClientInput.notify ⟨some "http://x",
                  some "urn:dial-multiscreen-org:device:dial:1",
                  some "ssdp:alive", none, none⟩]).1 "http://x" :=
  ⟨by decide,
   (clientRun_found_disappear_invariant
      [ClientInput.notify ⟨some "http://x",
          some "urn:dial-multiscreen-org:device:dial:1",
          some "ssdp:alive", none, none⟩] "http://x" (by decide)).1⟩
